import Mathlib

/-!
Shallow embedding of the QVT repository (src/QuantumCallInterface.jsx, the
"advanced" QVoiceTxtApp variant together with the shared helpers) and proofs
about it.  JavaScript strings are modelled as Lean `String`/`List Char`,
JavaScript numbers as `Nat`/`Int` (with `% 2 ^ 32` where `DataView.setUint32`
truncates), and fallible operations as `Option`.  Asynchronous handlers are
modelled as pure state-transition functions; the single-threaded JavaScript
event loop makes the in-tick reminder processing sequential, which is the
sequential fold used below.
-/

set_option maxHeartbeats 1000000

namespace QVT

/-! ### String helpers

`strLower` models `String.prototype.toLowerCase` (per-character lowering;
all dictionary phrases and routing keywords are ASCII), `strStartsWith`
models `String.prototype.startsWith`, `strIncludes` models
`String.prototype.includes`, and `strTrim` models `String.prototype.trim`.
They are defined over the character list so that concrete instances reduce
in the kernel. -/

def strLower (s : String) : String := String.mk (s.data.map Char.toLower)

def charsHasPre : List Char → List Char → Bool
  | _, [] => true
  | [], _ :: _ => false
  | c :: cs, p :: ps => c == p && charsHasPre cs ps

def charsContains : List Char → List Char → Bool
  | [], pat => pat.isEmpty
  | c :: cs, pat => charsHasPre (c :: cs) pat || charsContains cs pat

def strStartsWith (s pat : String) : Bool := charsHasPre s.data pat.data

def strIncludes (hay pat : String) : Bool := charsContains hay.data pat.data

def strTrim (s : String) : String :=
  String.mk (((s.data.dropWhile Char.isWhitespace).reverse.dropWhile
    Char.isWhitespace).reverse)

/-! ### TokenLibrary (src/QuantumCallInterface.jsx lines 917-925)

`findIndex` models `Array.prototype.findIndex` (first matching position,
`none` for the -1 / null outcome).  `lookupToken` and `lookupPhrase` are the
two TokenLibrary methods; `lookupPhrase` takes an `Int` index because the
stored `tokenIndex` field can be any number and `dictionary[index]` is
`undefined` (hence null) for negative or too-large indices. -/

def findIndex (pred : α → Bool) : List α → Option Nat
  | [] => none
  | x :: xs => if pred x then some 0 else (findIndex pred xs).map (· + 1)

def lookupToken (phrase : String) (dictionary : List String) : Option Nat :=
  findIndex (fun p => strLower p == strLower phrase) dictionary

def lookupPhrase (index : Int) (dictionary : List String) : Option String :=
  if index < 0 then none else dictionary[index.toNat]?

/-- Apostrophe as a string, built from its code point so the character never
appears literally in this file. -/
def apos : String := String.singleton (Char.ofNat 39)

/-- The `tokenDictionary` of `defaultNexusConfig` (lines 883-897). -/
def qvtTokenDictionary : List String :=
  ["Hello.", "How are you?", "I" ++ apos ++ "m fine, thanks.",
   "What are you working on?", "I need help.", "Yes.", "No.",
   "That is correct.", "I agree.", "Please wait a moment.",
   "/ask", "/summary", "/optimize"]

/-- Decoding done at the onSnapshot call site (lines 1287-1289):
`TokenLibrary.lookupPhrase(idx, dict) || `[TOKEN_ERROR: Unknown Index ${idx}]``.
The JavaScript `||` also replaces an empty-string phrase (falsy) by the
sentinel, which the `if phrase = ""` branch mirrors. -/
def decodeTokenIndex (index : Int) (dictionary : List String) : String :=
  match lookupPhrase index dictionary with
  | some phrase =>
      if phrase = "" then "[TOKEN_ERROR: Unknown Index " ++ toString index ++ "]"
      else phrase
  | none => "[TOKEN_ERROR: Unknown Index " ++ toString index ++ "]"

/-! ### Command router (handleUserMessage, lines 1333-1409)

The handler first looks the trimmed message up in the token dictionary and
returns (lines 1340-1344); only then does it consult `pendingAction`
(lines 1347-1362); only then does it classify by leading `/` or the
`archive`/`weather` substrings (lines 1364-1370).  `pendingAction` is only
ever set to an `{type: "action", content: {action: "ARCHIVE_CONFIRM"}}`
response (line 1383), so it is modelled as a `Bool`; the guard at line 1347
checks exactly these fields.  The second component of the result is the
`pendingAction` state after the dispatch: retained on a token match,
cleared after a follow-up (line 1357), set by a `/archive` command
(lines 1012-1017 and 1381-1384), untouched (null) otherwise. -/

inductive Dispatch where
  | tokenized (idx : Nat)
  | followup
  | command
  | intent
  | chat
deriving DecidableEq, Repr

def routeMessage (msg : String) (dictionary : List String) (pending : Bool) :
    Dispatch × Bool :=
  match lookupToken (strLower msg) dictionary with
  | some idx => (Dispatch.tokenized idx, pending)
  | none =>
    if pending then (Dispatch.followup, false)
    else if strStartsWith msg "/" then
      (Dispatch.command, strStartsWith (strLower msg) "/archive")
    else if strIncludes (strLower msg) "archive" || strIncludes (strLower msg) "weather" then
      (Dispatch.intent, false)
    else (Dispatch.chat, false)

/-! ### Retrying API gateway (callGeminiApi, lines 176-221)

Each loop iteration performs a fetch whose outcome is either a transport
exception or an HTTP status.  A non-ok status raises
`API call failed with status: N` *inside* the `try`, so it is caught by the
same `catch` as a transport failure; the `catch` swallows the error unless
`attempt === maxRetries - 1`, where the generic
`Failed to connect to the AI service.` error (`serviceUnavailable`) is
thrown.  A 429 with attempts remaining sleeps
`2^attempt * 1000 + Math.random() * 1000` ms and `continue`s.  The
`maxRetriesReached` error after the loop models the final
`Maximum retry attempts reached.` throw (reachable only for
`maxRetries = 0`).  `responses n` is the outcome of the n-th fetch and
`jitter n` the value of `Math.random() * 1000` (a natural below 1000) on
the n-th backoff. -/

inductive FetchBehavior where
  | throwTransport
  | status (code : Nat)

inductive ApiError where
  | serviceUnavailable
  | maxRetriesReached
deriving DecidableEq, Repr

inductive CallResult where
  | ok
  | err (e : ApiError)
deriving DecidableEq, Repr

structure CallTrace where
  fetchCount : Nat
  delays : List Nat
  result : CallResult
deriving DecidableEq, Repr

def responseOk (code : Nat) : Bool := 200 ≤ code && code ≤ 299

def callAux (responses : Nat → FetchBehavior) (jitter : Nat → Nat)
    (maxRetries : Nat) : Nat → CallTrace
  | 0 => ⟨0, [], CallResult.err ApiError.maxRetriesReached⟩
  | fuel + 1 =>
    let attempt := maxRetries - (fuel + 1)
    match responses attempt with
    | FetchBehavior.throwTransport =>
      if attempt = maxRetries - 1 then
        ⟨1, [], CallResult.err ApiError.serviceUnavailable⟩
      else
        let t := callAux responses jitter maxRetries fuel
        ⟨t.fetchCount + 1, t.delays, t.result⟩
    | FetchBehavior.status code =>
      if responseOk code then ⟨1, [], CallResult.ok⟩
      else if code = 429 && decide (attempt < maxRetries - 1) then
        let d := 2 ^ attempt * 1000 + jitter attempt
        let t := callAux responses jitter maxRetries fuel
        ⟨t.fetchCount + 1, d :: t.delays, t.result⟩
      else if attempt = maxRetries - 1 then
        ⟨1, [], CallResult.err ApiError.serviceUnavailable⟩
      else
        let t := callAux responses jitter maxRetries fuel
        ⟨t.fetchCount + 1, t.delays, t.result⟩

def callGeminiApi (responses : Nat → FetchBehavior) (jitter : Nat → Nat)
    (maxRetries : Nat) : CallTrace :=
  callAux responses jitter maxRetries maxRetries

/-! ### pcmToWav (lines 115-149 / 140-174)

The output blob is modelled as the list of its bytes.  `le16`/`le32` are the
little-endian `setUint16`/`setUint32` writes (truncating mod 2^16 / 2^32 as
`DataView` does), `asciiBytes` is `writeString` (`charCodeAt` masked to a
byte by `setUint8`), and `readLE16`/`readLE32` decode a field back for the
statements. -/

def le16 (v : Nat) : List Nat := [v % 256, v / 256 % 256]

def le32 (v : Nat) : List Nat :=
  [v % 256, v / 256 % 256, v / 65536 % 256, v / 16777216 % 256]

def readLE16 (bs : List Nat) : Nat := bs.getD 0 0 + 256 * bs.getD 1 0

def readLE32 (bs : List Nat) : Nat :=
  bs.getD 0 0 + 256 * bs.getD 1 0 + 65536 * bs.getD 2 0 +
    16777216 * bs.getD 3 0

def asciiBytes (s : String) : List Nat := s.data.map (fun c => c.toNat % 256)

def pcmToWav (pcm16 : List Nat) (sampleRate : Nat) : List Nat :=
  let numChannels := 1
  let bitsPerSample := 16
  let byteRate := sampleRate * numChannels * (bitsPerSample / 8)
  let blockAlign := numChannels * (bitsPerSample / 8)
  let dataSize := pcm16.length
  asciiBytes "RIFF" ++ le32 (36 + dataSize) ++ asciiBytes "WAVE" ++
  asciiBytes "fmt " ++ le32 16 ++ le16 1 ++ le16 numChannels ++
  le32 sampleRate ++ le32 byteRate ++ le16 blockAlign ++ le16 bitsPerSample ++
  asciiBytes "data" ++ le32 dataSize ++ pcm16.map (· % 256)

/-! ### Reminder scheduler (reminder polling useEffect, lines 1216-1239)

A poll tick queries the store ordered by `remindAt` limited to 10, then for
each snapshot record that is due and whose id is not in the process-local
`firedReminderIdsRef` set: adds the id to the set, saves a bot Utterance
`⏰ Reminder: <message>`, and deletes the record.  The membership test and
the insertion happen synchronously before the first `await`, so the
single-threaded event loop makes per-record processing atomic with respect
to the set; the sequential fold below is that model.  `SchedEvent.setStore`
models arbitrary external store changes between ticks (e.g. `/remindme`
adding records). -/

structure ReminderRecord where
  id : String
  remindAt : Nat
  message : String
deriving DecidableEq, Repr

structure Delivery where
  recordId : String
  sender : String
  text : String
deriving DecidableEq, Repr

structure SchedState where
  fired : List String
  store : List ReminderRecord
  emitted : List Delivery
deriving DecidableEq, Repr

def processRecord (botUserId : String) (now : Nat) (st : SchedState)
    (r : ReminderRecord) : SchedState :=
  if r.remindAt ≤ now && !(st.fired.contains r.id) then
    { fired := r.id :: st.fired
      store := st.store.filter (fun s => !(s.id == r.id))
      emitted := st.emitted ++ [⟨r.id, botUserId, "⏰ Reminder: " ++ r.message⟩] }
  else st

/-- Insertion step for the `orderBy('remindAt')` query ordering. -/
def insertByRemindAt (r : ReminderRecord) :
    List ReminderRecord → List ReminderRecord
  | [] => [r]
  | s :: ss =>
    if r.remindAt < s.remindAt then r :: s :: ss else s :: insertByRemindAt r ss

/-- The store ordered by `remindAt` (the `orderBy('remindAt')` query). -/
def sortByRemindAt (rs : List ReminderRecord) : List ReminderRecord :=
  rs.foldr insertByRemindAt []

def pollTick (botUserId : String) (now : Nat) (st : SchedState) : SchedState :=
  let snapshot := (sortByRemindAt st.store).take 10
  snapshot.foldl (processRecord botUserId now) st

inductive SchedEvent where
  | tick (now : Nat)
  | setStore (records : List ReminderRecord)

def runSched (botUserId : String) : SchedState → List SchedEvent → SchedState
  | st, [] => st
  | st, SchedEvent.tick now :: rest =>
      runSched botUserId (pollTick botUserId now st) rest
  | st, SchedEvent.setStore rs :: rest =>
      runSched botUserId { st with store := rs } rest

/-- Invariant of the scheduler state: delivered record ids are distinct,
every delivered id is in the fired set, and every delivery is the bot
Utterance `⏰ Reminder: <message>`. -/
def SchedInv (bot : String) (st : SchedState) : Prop :=
  (st.emitted.map Delivery.recordId).Nodup ∧
  (∀ d ∈ st.emitted, d.recordId ∈ st.fired) ∧
  (∀ d ∈ st.emitted, d.sender = bot ∧ ∃ m, d.text = "⏰ Reminder: " ++ m)

/-! ### /remindme command (askAgentQ, lines 993-1009)

`userQuery.match(/remindme (\d+)([mh]) "(.+)"/i)` is an *unanchored*,
case-insensitive regular-expression search.  Its deterministic backtracking
behaviour: at each start position (leftmost first) match the literal
`remindme ` case-insensitively, then a maximal non-empty digit run, then one
of `m`/`h`/`M`/`H`, then a space and a double quote, then a greedy `(.+)` —
the longest non-empty run of characters that are not line terminators
(the `.` of a JavaScript regular expression refuses LF, CR, U+2028 and
U+2029) followed by a closing double quote.  On a match with `db` and `userId` present (always the case
once the session is ready), a record `{remindAt: now + delay, message}` is
added, where `delay = value*60000` exactly when the matched unit character
is the lowercase `m` (strict `===`), else `value*3600000`; otherwise the
reply is the usage help message. -/

def remindPat : List Char := ['r', 'e', 'm', 'i', 'n', 'd', 'm', 'e', ' ']

def stripCI : List Char → List Char → Option (List Char)
  | [], s => some s
  | _ :: _, [] => none
  | p :: ps, c :: cs => if c.toLower = p then stripCI ps cs else none

def unitChars : List Char := ['m', 'h', 'M', 'H']

/-- The characters the regular-expression `.` refuses: the JavaScript line
terminators LF, CR, LINE SEPARATOR (U+2028) and PARAGRAPH SEPARATOR
(U+2029). -/
def isLineTerminator (c : Char) : Bool :=
  c = '\n' || c = '\r' || c = Char.ofNat 8232 || c = Char.ofNat 8233

def greedyQuoteCapture : List Char → Option (List Char)
  | [] => none
  | c :: cs =>
    if isLineTerminator c then none
    else
      match greedyQuoteCapture cs with
      | some p => some (c :: p)
      | none => if c = '"' then some [] else none

def tryMatch (s : List Char) : Option (List Char × Char × List Char) :=
  match stripCI remindPat s with
  | none => none
  | some r1 =>
    let digits := r1.takeWhile Char.isDigit
    let r2 := r1.dropWhile Char.isDigit
    if digits.isEmpty then none
    else
      match r2 with
      | [] => none
      | u :: r3 =>
        if unitChars.contains u then
          match r3 with
          | ' ' :: '"' :: r4 =>
            match greedyQuoteCapture r4 with
            | some p => if p.isEmpty then none else some (digits, u, p)
            | none => none
          | _ => none
        else none

def searchMatch : List Char → Option (List Char × Char × List Char)
  | [] => tryMatch []
  | c :: cs =>
    match tryMatch (c :: cs) with
    | some r => some r
    | none => searchMatch cs

/-- `parseInt` on an all-digit string. -/
def digitsToNat (ds : List Char) : Nat :=
  ds.foldl (fun n c => n * 10 + (c.toNat - 48)) 0

def usageReply : String := "Agent Q: Usage: /remindme 10m \"your message\""

structure ReminderCmdResult where
  created : Option (Nat × String)
  reply : String
deriving DecidableEq, Repr

def askAgentQRemindme (userQuery : String) (now : Nat) : ReminderCmdResult :=
  match searchMatch userQuery.data with
  | some (digits, u, msgChars) =>
    let value := digitsToNat digits
    let delayMs := if u = 'm' then value * 60000 else value * 3600000
    { created := some (now + delayMs, String.mk msgChars)
      reply := "Agent Q: I" ++ apos ++ "ll remind you in " ++ String.mk digits ++
        String.mk [u] ++ ": \"" ++ String.mk msgChars ++ "\"." }
  | none => { created := none, reply := usageReply }

/-- The claim's well-formed command shape `/remindme <N><m|h> "<message>"`,
written from the claim's words: the whole input is the command word, a
space, a non-empty digit run N, a unit letter `m` or `h`, a space, and a
double-quoted message.  Used only to exhibit an input that is *not* of
this shape. -/
def claimShapeRemindme (s : List Char) : Prop :=
  ∃ d u m, d ≠ [] ∧ (∀ c ∈ d, c.isDigit = true) ∧ (u = 'm' ∨ u = 'h') ∧
    m ≠ [] ∧
    s = '/' :: (remindPat ++ (d ++ (u :: ' ' :: '"' :: (m ++ ['"']))))

/-! ### Conversation history (getFormattedHistory, lines 1304-1310)

`filter(msg => !msg.isTokenized && msg.text)` keeps non-tokenized messages
with truthy (non-empty) text; `slice(-maxTurns)` keeps the last `maxTurns`
elements (the whole list for `maxTurns = 0`, the JavaScript `slice(-0)`
quirk); the map builds `{sender, text}` with sender `user` exactly for the
current user. -/

structure ChatMessage where
  userId : String
  text : String
  isTokenized : Bool
deriving DecidableEq, Repr

structure HistoryEntry where
  sender : String
  text : String
deriving DecidableEq, Repr

def keepMessage (m : ChatMessage) : Bool := !m.isTokenized && !(m.text == "")

def formatEntry (uid : String) (m : ChatMessage) : HistoryEntry :=
  ⟨if m.userId == uid then "user" else "Agent Q", m.text⟩

def sliceLast (n : Nat) (l : List α) : List α :=
  if n = 0 then l else l.drop (l.length - n)

def getFormattedHistory (msgs : List ChatMessage) (uid : String)
    (maxTurns : Nat) : List HistoryEntry :=
  (sliceLast maxTurns (msgs.filter keepMessage)).map (formatEntry uid)

end QVT

namespace QVT

/-! ## Theorems -/

/-! ### C1 — pending confirmation routing -/

section RouterClaims

/-- Helper for C7: walking the dictionary with `findIndex` and the
case-insensitive predicate finds an entry whose lowercase form agrees with
the probe whenever the probe itself is an entry. -/
theorem lookup_roundtrip_aux (p : String) (l : List String) (hl : p ∈ l) :
    ∃ i q, findIndex (fun d => strLower d == strLower p) l = some i ∧
      l[i]? = some q ∧ strLower q = strLower p := by
  induction l with
  | nil => cases hl
  | cons d ds ih =>
    by_cases hd : strLower d = strLower p
    · exact ⟨0, d, by simp [findIndex, hd], by simp, hd⟩
    · have hb : (strLower d == strLower p) = false := by
        simpa using hd
      have hmem : p ∈ ds := by
        rcases List.mem_cons.mp hl with rfl | h
        · exact absurd rfl hd
        · exact h
      obtain ⟨i, q, hfind, hget, hlow⟩ := ih hmem
      refine ⟨i + 1, q, ?_, ?_, hlow⟩
      · simp [findIndex, hb, hfind]
      · simpa using hget

/-- C1 counterexample.  With a `PendingConfirmation` pending, the input
`Yes.` — which exactly matches token-dictionary entry 5 — is stored as a
tokenized Utterance (the token check at lines 1340-1344 runs first and
returns) and the pending value is retained, not cleared; the claim requires
it to be routed as a followup with the pending value cleared. -/
theorem c1_counterexample :
    routeMessage "Yes." qvtTokenDictionary true = (Dispatch.tokenized 5, true) ∧
    ((Dispatch.tokenized 5, true) : Dispatch × Bool) ≠ (Dispatch.followup, false) := by
  constructor
  · decide
  · decide

/-- C1 amended: with a `PendingConfirmation` set, any next input that does
NOT case-insensitively match a token-dictionary phrase is handled as a
followup and the pending value is cleared after that single follow-up;
an input that does match the dictionary is stored as a tokenized Utterance
and the pending value is retained. -/
theorem c1_pending_followup_amended (msg : String) (dictionary : List String)
    (h : lookupToken (strLower msg) dictionary = none) :
    routeMessage msg dictionary true = (Dispatch.followup, false) := by
  simp [routeMessage, h]

/-- C1 witness: a concrete non-dictionary input with pending confirmation
set is routed as a followup and the pending value is cleared. -/
theorem c1_witness :
    routeMessage "ok then" qvtTokenDictionary true = (Dispatch.followup, false) :=
  c1_pending_followup_amended "ok then" qvtTokenDictionary (by decide)

/-! ### C3 — decode sentinel -/

/-- C3 counterexample.  At out-of-range index 13 the decode path produces
`[TOKEN_ERROR: Unknown Index 13]`, which is not the claimed sentinel string
`[TOKEN_ERROR: unknown index 13]` (the code capitalizes `Unknown Index`). -/
theorem c3_counterexample :
    decodeTokenIndex 13 qvtTokenDictionary = "[TOKEN_ERROR: Unknown Index 13]" ∧
    "[TOKEN_ERROR: Unknown Index 13]" ≠ "[TOKEN_ERROR: unknown index 13]" := by
  constructor
  · decide
  · decide

/-- C3 amended: for every integer index outside `[0, length)` the decode
path returns the sentinel string `[TOKEN_ERROR: Unknown Index <i>]`; decode
is a total function with no failure outcome. -/
theorem c3_decode_sentinel_amended (index : Int) (dictionary : List String)
    (h : index < 0 ∨ (dictionary.length : Int) ≤ index) :
    decodeTokenIndex index dictionary =
      "[TOKEN_ERROR: Unknown Index " ++ toString index ++ "]" := by
  unfold decodeTokenIndex lookupPhrase
  rcases h with h | h
  · simp [h]
  · have h0 : ¬ index < 0 := by omega
    have hnone : dictionary[index.toNat]? = none := by
      apply List.getElem?_eq_none
      omega
    simp [h0, hnone]

/-- C3 witness: decoding the concrete out-of-range index -1 yields the
sentinel. -/
theorem c3_witness :
    decodeTokenIndex (-1) qvtTokenDictionary = "[TOKEN_ERROR: Unknown Index -1]" := by
  have h := c3_decode_sentinel_amended (-1) qvtTokenDictionary (Or.inl (by norm_num))
  exact h.trans (by decide)

/-! ### C7 — encode/decode round trip -/

/-- C7: every phrase of the dictionary encodes to some index (first
case-insensitive match) and decoding that index yields a phrase equal to the
original up to case normalization. -/
theorem c7_roundtrip (dictionary : List String) (p : String)
    (hp : p ∈ dictionary) :
    ∃ i q, lookupToken p dictionary = some i ∧
      lookupPhrase (i : Int) dictionary = some q ∧
      strLower q = strLower p := by
  obtain ⟨i, q, hfind, hget, hlow⟩ := lookup_roundtrip_aux p dictionary hp
  refine ⟨i, q, ?_, ?_, hlow⟩
  · simpa [lookupToken] using hfind
  · unfold lookupPhrase
    have h0 : ¬ ((i : Int) < 0) := by omega
    simpa [h0] using hget

/-- C7 witness at the concrete dictionary phrase `Hello.`. -/
theorem c7_witness :
    ∃ i q, lookupToken "Hello." qvtTokenDictionary = some i ∧
      lookupPhrase (i : Int) qvtTokenDictionary = some q ∧
      strLower q = strLower "Hello." :=
  c7_roundtrip qvtTokenDictionary "Hello." (by decide)

/-! ### C8 — classification precedence -/

/-- C8: for a trimmed non-empty input with no pending confirmation the
dispatch is first-match-wins in the order: token-dictionary match (stored
tokenized, nothing else runs), leading `/` (command), case-insensitive
substring `archive` or `weather` (intent), chat fallback. -/
theorem c8_classification (msg : String) (dictionary : List String)
    (hne : msg ≠ "") (htrim : strTrim msg = msg) :
    (∀ i, lookupToken (strLower msg) dictionary = some i →
      routeMessage msg dictionary false = (Dispatch.tokenized i, false)) ∧
    (lookupToken (strLower msg) dictionary = none →
      strStartsWith msg "/" = true →
      (routeMessage msg dictionary false).1 = Dispatch.command) ∧
    (lookupToken (strLower msg) dictionary = none →
      strStartsWith msg "/" = false →
      (strIncludes (strLower msg) "archive" ||
        strIncludes (strLower msg) "weather") = true →
      (routeMessage msg dictionary false).1 = Dispatch.intent) ∧
    (lookupToken (strLower msg) dictionary = none →
      strStartsWith msg "/" = false →
      (strIncludes (strLower msg) "archive" ||
        strIncludes (strLower msg) "weather") = false →
      (routeMessage msg dictionary false).1 = Dispatch.chat) := by
  refine ⟨?_, ?_, ?_, ?_⟩
  · intro i hi
    simp [routeMessage, hi]
  · intro h1 h2
    simp [routeMessage, h1, h2]
  · intro h1 h2 h3
    simp [routeMessage, h1, h2, h3]
  · intro h1 h2 h3
    simp [routeMessage, h1, h2] at *
    simp [routeMessage, h1, h2, h3.1, h3.2]

/-- C8 witness: the concrete input `check weather` (trimmed, non-empty, not
a dictionary phrase, no leading slash) is classified as intent. -/
theorem c8_witness :
    (routeMessage "check weather" qvtTokenDictionary false).1 = Dispatch.intent := by
  have h := c8_classification "check weather" qvtTokenDictionary (by decide) (by decide)
  exact h.2.2.1 (by decide) (by decide) (by decide)

end RouterClaims

end QVT

namespace QVT

section GatewayClaims

/-- Helper: when every fetch yields a non-success, non-429 status, the loop
consumes all its fuel with no backoff delays and ends with the generic
service-unavailable error (the per-attempt status error is swallowed by the
catch). -/
theorem callAux_allBadStatus (responses : Nat → FetchBehavior)
    (jitter : Nat → Nat) (maxRetries : Nat)
    (hresp : ∀ a, a < maxRetries → ∃ s, responses a = FetchBehavior.status s ∧
      responseOk s = false ∧ s ≠ 429) :
    ∀ fuel, 1 ≤ fuel → fuel ≤ maxRetries →
      callAux responses jitter maxRetries fuel =
        ⟨fuel, [], CallResult.err ApiError.serviceUnavailable⟩ := by
  intro fuel
  induction fuel with
  | zero => intro h; omega
  | succ f ih =>
    intro _ hle
    have hattempt : maxRetries - (f + 1) < maxRetries := by omega
    obtain ⟨s, hs, hok, h429⟩ := hresp (maxRetries - (f + 1)) hattempt
    rcases Nat.eq_zero_or_pos f with rfl | hf
    · have hlast : maxRetries - 1 = maxRetries - 1 := rfl
      simp [callAux, hs, hok, h429]
    · have hnotlast : ¬ (maxRetries - (f + 1) = maxRetries - 1) := by omega
      have := ih hf (by omega)
      simp [callAux, hs, hok, h429, hnotlast, this]

/-- C2 counterexample.  With every fetch returning HTTP 500 and
`maxRetries = 3`, the gateway performs three fetches (it does not fail
immediately after the first) and the surfaced error is the generic
service-unavailable error with no status code attached: the per-attempt
`API call failed with status: N` throw happens inside the `try` and is
swallowed by the `catch`. -/
theorem c2_counterexample :
    (callGeminiApi (fun _ => FetchBehavior.status 500) (fun _ => 0) 3).fetchCount ≠ 1 ∧
    callGeminiApi (fun _ => FetchBehavior.status 500) (fun _ => 0) 3 =
      ⟨3, [], CallResult.err ApiError.serviceUnavailable⟩ := by
  constructor
  · decide
  · decide

/-- C2 amended: on a sustained non-success, non-429 status the gateway does
not fail immediately; the status-code error is caught by the retry loop,
the call is retried without any backoff delay until all `maxAttempts`
fetches are spent, and the surfaced failure is the generic
ServiceUnavailable error (the status code is not attached). -/
theorem c2_retry_amended (responses : Nat → FetchBehavior)
    (jitter : Nat → Nat) (maxRetries : Nat) (hmax : 1 ≤ maxRetries)
    (hresp : ∀ a, a < maxRetries → ∃ s, responses a = FetchBehavior.status s ∧
      responseOk s = false ∧ s ≠ 429) :
    callGeminiApi responses jitter maxRetries =
      ⟨maxRetries, [], CallResult.err ApiError.serviceUnavailable⟩ :=
  callAux_allBadStatus responses jitter maxRetries hresp maxRetries hmax
    (Nat.le_refl _)

/-- C2 witness: three sustained HTTP 404 responses with `maxRetries = 3`. -/
theorem c2_witness :
    callGeminiApi (fun _ => FetchBehavior.status 404) (fun _ => 0) 3 =
      ⟨3, [], CallResult.err ApiError.serviceUnavailable⟩ :=
  c2_retry_amended (fun _ => FetchBehavior.status 404) (fun _ => 0) 3
    (by norm_num) (fun a _ => ⟨404, rfl, by decide, by decide⟩)

/-- Helper for C4: under sustained HTTP 429 the loop sleeps
`2^attempt * 1000 + jitter attempt` before each retry and ends with the
generic service-unavailable error. -/
theorem callAux_all429 (responses : Nat → FetchBehavior) (jitter : Nat → Nat)
    (maxRetries : Nat)
    (hresp : ∀ a, a < maxRetries → responses a = FetchBehavior.status 429) :
    ∀ fuel, 1 ≤ fuel → fuel ≤ maxRetries →
      callAux responses jitter maxRetries fuel =
        ⟨fuel,
          (List.range' (maxRetries - fuel) (fuel - 1)).map
            (fun a => 2 ^ a * 1000 + jitter a),
          CallResult.err ApiError.serviceUnavailable⟩ := by
  intro fuel
  induction fuel with
  | zero => intro h; omega
  | succ f ih =>
    intro _ hle
    have hattempt : maxRetries - (f + 1) < maxRetries := by omega
    have hs := hresp (maxRetries - (f + 1)) hattempt
    cases f with
    | zero =>
      have hnot : ¬ (maxRetries - (0 + 1) < maxRetries - 1) := by omega
      simp [callAux, hs, responseOk, hnot]
    | succ f' =>
      have hretry : maxRetries - (f' + 1 + 1) < maxRetries - 1 := by omega
      have hrec := ih (by omega) (by omega)
      have hshift : maxRetries - (f' + 1 + 1) + 1 = maxRetries - (f' + 1) := by
        omega
      rw [callAux, hrec]
      simp [hs, responseOk, hretry, List.range'_succ, hshift]

/-- C4: under sustained HTTP 429 the gateway performs `maxAttempts` fetches
(hence exactly `maxAttempts - 1` retries); the i-th retry is preceded by a
sleep of `2^i * 1000 + jitter i` milliseconds with `jitter i < 1000`
(full jitter), so each delay lies in `[2^i*1000, 2^i*1000 + 1000)` and both
interval bounds are monotonically non-decreasing in the attempt number; the
call then fails with the ServiceUnavailable error. -/
theorem c4_rate_limit_backoff (jitter : Nat → Nat) (maxRetries : Nat)
    (hmax : 1 ≤ maxRetries) (hjit : ∀ a, jitter a < 1000) :
    (callGeminiApi (fun _ => FetchBehavior.status 429) jitter maxRetries).fetchCount
        = maxRetries ∧
    (callGeminiApi (fun _ => FetchBehavior.status 429) jitter maxRetries).delays
        = (List.range (maxRetries - 1)).map (fun a => 2 ^ a * 1000 + jitter a) ∧
    (callGeminiApi (fun _ => FetchBehavior.status 429) jitter maxRetries).result
        = CallResult.err ApiError.serviceUnavailable ∧
    (∀ i, i < maxRetries - 1 →
      2 ^ i * 1000 ≤
        ((callGeminiApi (fun _ => FetchBehavior.status 429) jitter
          maxRetries).delays).getD i 0 ∧
      ((callGeminiApi (fun _ => FetchBehavior.status 429) jitter
          maxRetries).delays).getD i 0 < 2 ^ i * 1000 + 1000) ∧
    (∀ i j, i ≤ j →
      2 ^ i * 1000 ≤ 2 ^ j * 1000 ∧
      2 ^ i * 1000 + 1000 ≤ 2 ^ j * 1000 + 1000) := by
  have h := callAux_all429 (fun _ => FetchBehavior.status 429) jitter maxRetries
    (fun _ _ => rfl) maxRetries hmax (Nat.le_refl _)
  have hcall : callGeminiApi (fun _ => FetchBehavior.status 429) jitter maxRetries =
      ⟨maxRetries,
        (List.range' 0 (maxRetries - 1)).map (fun a => 2 ^ a * 1000 + jitter a),
        CallResult.err ApiError.serviceUnavailable⟩ := by
    simpa [callGeminiApi] using h
  have hrange : List.range (maxRetries - 1) = List.range' 0 (maxRetries - 1) :=
    List.range_eq_range' (maxRetries - 1)
  refine ⟨by simp [hcall], by simp [hcall, hrange], by simp [hcall], ?_, ?_⟩
  · intro i hi
    have hget : ((List.range' 0 (maxRetries - 1)).map
        (fun a => 2 ^ a * 1000 + jitter a)).getD i 0 = 2 ^ i * 1000 + jitter i := by
      rw [List.getD_eq_getElem?_getD, List.getElem?_map,
        List.getElem?_eq_getElem (by simpa using hi)]
      simp [List.getElem_range']
    rw [hcall]
    simp only [hget]
    constructor
    · omega
    · have := hjit i
      omega
  · intro i j hij
    have hpow : 2 ^ i ≤ 2 ^ j := Nat.pow_le_pow_right (by norm_num) hij
    constructor
    · exact Nat.mul_le_mul_right 1000 hpow
    · have := Nat.mul_le_mul_right 1000 hpow
      omega

/-- C4 witness at `maxRetries = 3` with constant jitter 500: three fetches,
delays 1500 then 2500 ms. -/
theorem c4_witness :
    (callGeminiApi (fun _ => FetchBehavior.status 429) (fun _ => 500) 3).delays
      = [1500, 2500] := by
  have h := c4_rate_limit_backoff (fun _ => 500) 3 (by norm_num)
    (fun a => by norm_num)
  exact h.2.1.trans (by decide)

end GatewayClaims

end QVT

namespace QVT

section WavClaims

/-- Decoding a little-endian 32-bit write recovers the value when it is
representable. -/
theorem readLE32_le32 (v : Nat) (h : v < 4294967296) :
    readLE32 (le32 v) = v := by
  simp [readLE32, le32]
  omega

/-- Dropping past a chunk of known length. -/
theorem dropChunk (A B : List Nat) (k m n : Nat) (hA : A.length = k)
    (hkn : k + m = n) : (A ++ B).drop n = B.drop m := by
  subst hkn
  subst hA
  exact List.drop_append m

/-- Taking exactly a chunk of known length. -/
theorem takeChunk (A B : List Nat) (k : Nat) (hA : A.length = k) :
    (A ++ B).take k = A := by
  subst hA
  exact List.take_left A B

/-- The WAV blob, split at every header field boundary. -/
theorem pcmToWav_eq (pcm16 : List Nat) (sampleRate : Nat) :
    pcmToWav pcm16 sampleRate =
      [82, 73, 70, 70] ++ (le32 (36 + pcm16.length) ++ ([87, 65, 86, 69] ++
      ([102, 109, 116, 32, 16, 0, 0, 0, 1, 0, 1, 0] ++ (le32 sampleRate ++
      (le32 (sampleRate * 2) ++ ([2, 0] ++ ([16, 0] ++
      ([100, 97, 116, 97] ++ (le32 pcm16.length ++
      pcm16.map (· % 256)))))))))) := by
  have h1 : asciiBytes "RIFF" = [82, 73, 70, 70] := by decide
  have h2 : asciiBytes "WAVE" = [87, 65, 86, 69] := by decide
  have h3 : asciiBytes "fmt " = [102, 109, 116, 32] := by decide
  have h4 : asciiBytes "data" = [100, 97, 116, 97] := by decide
  have h5 : le32 16 = [16, 0, 0, 0] := by decide
  have h6 : le16 1 = [1, 0] := by decide
  have h7 : le16 2 = [2, 0] := by decide
  have h8 : le16 16 = [16, 0] := by decide
  simp [pcmToWav, h1, h2, h3, h4, h5, h6, h7, h8]

/-- C6: the WAV blob is 44 header bytes plus the PCM bytes; the header is a
little-endian RIFF/WAVE header with riffChunkSize 36 + dataSize, byteRate
sampleRate * 2, blockAlign 2 and dataSize the PCM byte length; for the
empty buffer the blob is 44 bytes with dataSize 0 and riffChunkSize 36. -/
theorem c6_wav_header (pcm16 : List Nat) (sampleRate : Nat)
    (hrate : sampleRate * 2 < 4294967296)
    (hsize : 36 + pcm16.length < 4294967296) :
    (pcmToWav pcm16 sampleRate).length = 44 + pcm16.length ∧
    (pcmToWav pcm16 sampleRate).take 4 = [82, 73, 70, 70] ∧
    ((pcmToWav pcm16 sampleRate).drop 8).take 4 = [87, 65, 86, 69] ∧
    readLE32 (((pcmToWav pcm16 sampleRate).drop 4).take 4) =
      36 + pcm16.length ∧
    readLE32 (((pcmToWav pcm16 sampleRate).drop 28).take 4) =
      sampleRate * 2 ∧
    readLE16 (((pcmToWav pcm16 sampleRate).drop 32).take 2) = 2 ∧
    readLE32 (((pcmToWav pcm16 sampleRate).drop 40).take 4) =
      pcm16.length ∧
    (pcmToWav pcm16 sampleRate).drop 44 = pcm16.map (· % 256) ∧
    (pcmToWav [] 16000).length = 44 ∧
    readLE32 (((pcmToWav [] 16000).drop 40).take 4) = 0 ∧
    readLE32 (((pcmToWav [] 16000).drop 4).take 4) = 36 := by
  refine ⟨?_, ?_, ?_, ?_, ?_, ?_, ?_, ?_, by decide, by decide, by decide⟩
  · rw [pcmToWav_eq]
    simp [le32]
    omega
  · rw [pcmToWav_eq]
    exact takeChunk [82, 73, 70, 70] _ 4 rfl
  · rw [pcmToWav_eq,
      dropChunk [82, 73, 70, 70] _ 4 4 8 rfl rfl,
      dropChunk (le32 (36 + pcm16.length)) _ 4 0 4 rfl rfl,
      List.drop_zero]
    exact takeChunk [87, 65, 86, 69] _ 4 rfl
  · rw [pcmToWav_eq,
      dropChunk [82, 73, 70, 70] _ 4 0 4 rfl rfl,
      List.drop_zero,
      takeChunk (le32 (36 + pcm16.length)) _ 4 rfl,
      readLE32_le32 _ hsize]
  · rw [pcmToWav_eq,
      dropChunk [82, 73, 70, 70] _ 4 24 28 rfl rfl,
      dropChunk (le32 (36 + pcm16.length)) _ 4 20 24 rfl rfl,
      dropChunk [87, 65, 86, 69] _ 4 16 20 rfl rfl,
      dropChunk [102, 109, 116, 32, 16, 0, 0, 0, 1, 0, 1, 0] _ 12 4 16 rfl rfl,
      dropChunk (le32 sampleRate) _ 4 0 4 rfl rfl,
      List.drop_zero,
      takeChunk (le32 (sampleRate * 2)) _ 4 rfl,
      readLE32_le32 _ hrate]
  · rw [pcmToWav_eq,
      dropChunk [82, 73, 70, 70] _ 4 28 32 rfl rfl,
      dropChunk (le32 (36 + pcm16.length)) _ 4 24 28 rfl rfl,
      dropChunk [87, 65, 86, 69] _ 4 20 24 rfl rfl,
      dropChunk [102, 109, 116, 32, 16, 0, 0, 0, 1, 0, 1, 0] _ 12 8 20 rfl rfl,
      dropChunk (le32 sampleRate) _ 4 4 8 rfl rfl,
      dropChunk (le32 (sampleRate * 2)) _ 4 0 4 rfl rfl,
      List.drop_zero,
      takeChunk [2, 0] _ 2 rfl]
    decide
  · rw [pcmToWav_eq,
      dropChunk [82, 73, 70, 70] _ 4 36 40 rfl rfl,
      dropChunk (le32 (36 + pcm16.length)) _ 4 32 36 rfl rfl,
      dropChunk [87, 65, 86, 69] _ 4 28 32 rfl rfl,
      dropChunk [102, 109, 116, 32, 16, 0, 0, 0, 1, 0, 1, 0] _ 12 16 28 rfl rfl,
      dropChunk (le32 sampleRate) _ 4 12 16 rfl rfl,
      dropChunk (le32 (sampleRate * 2)) _ 4 8 12 rfl rfl,
      dropChunk [2, 0] _ 2 6 8 rfl rfl,
      dropChunk [16, 0] _ 2 4 6 rfl rfl,
      dropChunk [100, 97, 116, 97] _ 4 0 4 rfl rfl,
      List.drop_zero,
      takeChunk (le32 pcm16.length) _ 4 rfl,
      readLE32_le32 _ (by omega)]
  · rw [pcmToWav_eq,
      dropChunk [82, 73, 70, 70] _ 4 40 44 rfl rfl,
      dropChunk (le32 (36 + pcm16.length)) _ 4 36 40 rfl rfl,
      dropChunk [87, 65, 86, 69] _ 4 32 36 rfl rfl,
      dropChunk [102, 109, 116, 32, 16, 0, 0, 0, 1, 0, 1, 0] _ 12 20 32 rfl rfl,
      dropChunk (le32 sampleRate) _ 4 16 20 rfl rfl,
      dropChunk (le32 (sampleRate * 2)) _ 4 12 16 rfl rfl,
      dropChunk [2, 0] _ 2 10 12 rfl rfl,
      dropChunk [16, 0] _ 2 8 10 rfl rfl,
      dropChunk [100, 97, 116, 97] _ 4 4 8 rfl rfl,
      dropChunk (le32 pcm16.length) _ 4 0 4 rfl rfl,
      List.drop_zero]

/-- C6 witness: a concrete 2-byte PCM buffer at 8000 Hz. -/
theorem c6_witness :
    (pcmToWav [7, 1] 8000).length = 46 ∧
    readLE32 (((pcmToWav [7, 1] 8000).drop 28).take 4) = 16000 := by
  have h := c6_wav_header [7, 1] 8000 (by norm_num) (by norm_num)
  exact ⟨h.1.trans (by norm_num), h.2.2.2.2.1.trans (by norm_num)⟩

end WavClaims

end QVT

namespace QVT

section HistoryClaims

/-- C10: the history passed to the agent helper is at most 10 entries, is
the most recent slice (a suffix) of the kept-message projection, has
exactly 10 entries when at least 10 messages survive the filter, and every
entry comes from a non-tokenized message with non-empty text, with sender
`user` exactly when that message belongs to the current user; tokenized
utterances never contribute an entry. -/
theorem c10_history (msgs : List ChatMessage) (uid : String) :
    (getFormattedHistory msgs uid 10).length ≤ 10 ∧
    getFormattedHistory msgs uid 10 <:+
      (msgs.filter keepMessage).map (formatEntry uid) ∧
    ((msgs.filter keepMessage).length ≥ 10 →
      (getFormattedHistory msgs uid 10).length = 10) ∧
    (∀ e ∈ getFormattedHistory msgs uid 10, ∃ m, m ∈ msgs ∧
      m.isTokenized = false ∧ m.text ≠ "" ∧
      e.text = m.text ∧ (e.sender = "user" ↔ m.userId = uid)) := by
  have hslice : getFormattedHistory msgs uid 10 =
      ((msgs.filter keepMessage).drop
        ((msgs.filter keepMessage).length - 10)).map (formatEntry uid) := by
    simp [getFormattedHistory, sliceLast]
  refine ⟨?_, ?_, ?_, ?_⟩
  · rw [hslice]
    simp only [List.length_map, List.length_drop]
    omega
  · rw [hslice]
    exact (List.drop_suffix _ _).map _
  · intro h
    rw [hslice]
    simp only [List.length_map, List.length_drop]
    omega
  · intro e he
    rw [hslice] at he
    obtain ⟨m, hm, rfl⟩ := List.mem_map.mp he
    have hmem : m ∈ msgs.filter keepMessage := List.mem_of_mem_drop hm
    have h2 := List.mem_filter.mp hmem
    have hkeep := h2.2
    simp only [keepMessage, Bool.and_eq_true, Bool.not_eq_true',
      beq_eq_false_iff_ne, ne_eq] at hkeep
    refine ⟨m, h2.1, hkeep.1, hkeep.2, rfl, ?_⟩
    by_cases hid : m.userId = uid
    · simp [formatEntry, hid]
    · simp only [formatEntry, hid, beq_iff_eq, if_false, if_neg hid]
      constructor
      · intro h
        exact absurd h (by decide)
      · intro h
        exact h.elim

/-- C10 witness: concrete history with a tokenized message filtered out. -/
theorem c10_witness :
    ∃ m, m ∈ [(⟨"u1", "hi", false⟩ : ChatMessage), ⟨"u1", "x", true⟩] ∧
      m.isTokenized = false ∧ m.text ≠ "" ∧
      (⟨"user", "hi"⟩ : HistoryEntry).text = m.text ∧
      ((⟨"user", "hi"⟩ : HistoryEntry).sender = "user" ↔ m.userId = "u1") :=
  (c10_history [⟨"u1", "hi", false⟩, ⟨"u1", "x", true⟩] "u1").2.2.2
    ⟨"user", "hi"⟩ (by decide)

end HistoryClaims

end QVT

namespace QVT

section SchedulerClaims

/-- Processing one snapshot record preserves the scheduler invariant and
only grows the fired set. -/
theorem processRecord_inv (bot : String) (now : Nat) (st : SchedState)
    (r : ReminderRecord) (h : SchedInv bot st) :
    SchedInv bot (processRecord bot now st r) ∧
    ∀ x ∈ st.fired, x ∈ (processRecord bot now st r).fired := by
  obtain ⟨hnd, hfired, hshape⟩ := h
  unfold processRecord
  by_cases hc : (r.remindAt ≤ now && !(st.fired.contains r.id)) = true
  · rw [if_pos hc]
    have hnotfired : r.id ∉ st.fired := by
      simp only [Bool.and_eq_true, Bool.not_eq_true'] at hc
      have hc2 := hc.2
      simp at hc2
      exact hc2
    refine ⟨⟨?_, ?_, ?_⟩, ?_⟩
    · rw [List.map_append]
      rw [List.nodup_append]
      refine ⟨hnd, List.nodup_singleton _, ?_⟩
      intro x hx
      obtain ⟨d, hd, rfl⟩ := List.mem_map.mp hx
      have : d.recordId ∈ st.fired := hfired d hd
      simp only [List.map_cons, List.map_nil, List.mem_singleton]
      intro hxe
      rw [hxe] at this
      exact hnotfired this
    · intro d hd
      rcases List.mem_append.mp hd with hd | hd
      · exact List.mem_cons_of_mem _ (hfired d hd)
      · rw [List.mem_singleton.mp hd]
        exact List.mem_cons_self _ _
    · intro d hd
      rcases List.mem_append.mp hd with hd | hd
      · exact hshape d hd
      · rw [List.mem_singleton.mp hd]
        exact ⟨rfl, r.message, rfl⟩
    · intro x hx
      exact List.mem_cons_of_mem _ hx
  · rw [if_neg hc]
    exact ⟨⟨hnd, hfired, hshape⟩, fun x hx => hx⟩

/-- A record processed into the store-filtered state keeps every new
delivery's id out of the store. -/
theorem processRecord_deletes (bot : String) (now : Nat) (st : SchedState)
    (r : ReminderRecord) (base : List Delivery)
    (h : ∀ d ∈ st.emitted, d ∉ base →
      ∀ s ∈ st.store, s.id ≠ d.recordId) :
    ∀ d ∈ (processRecord bot now st r).emitted, d ∉ base →
      ∀ s ∈ (processRecord bot now st r).store, s.id ≠ d.recordId := by
  unfold processRecord
  by_cases hc : (r.remindAt ≤ now && !(st.fired.contains r.id)) = true
  · rw [if_pos hc]
    intro d hd hdb s hs
    have hs' : s ∈ st.store.filter (fun t => !(t.id == r.id)) := hs
    have hsub : s ∈ st.store := List.mem_of_mem_filter hs'
    have hsfilter := (List.mem_filter.mp hs').2
    rcases List.mem_append.mp hd with hd | hd
    · exact h d hd hdb s hsub
    · rw [List.mem_singleton.mp hd]
      simp only [Bool.not_eq_true', beq_eq_false_iff_ne, ne_eq] at hsfilter
      exact hsfilter
  · rw [if_neg hc]
    exact h

/-- Folding `processRecord` over a snapshot preserves the invariant. -/
theorem foldl_processRecord_inv (bot : String) (now : Nat) :
    ∀ (rs : List ReminderRecord) (st : SchedState), SchedInv bot st →
      SchedInv bot (rs.foldl (processRecord bot now) st) := by
  intro rs
  induction rs with
  | nil => intro st h; exact h
  | cons r rest ih =>
    intro st h
    exact ih _ (processRecord_inv bot now st r h).1

/-- Folding `processRecord` over a snapshot keeps delivered ids deleted. -/
theorem foldl_processRecord_deletes (bot : String) (now : Nat)
    (base : List Delivery) :
    ∀ (rs : List ReminderRecord) (st : SchedState),
      (∀ d ∈ st.emitted, d ∉ base → ∀ s ∈ st.store, s.id ≠ d.recordId) →
      ∀ d ∈ (rs.foldl (processRecord bot now) st).emitted, d ∉ base →
        ∀ s ∈ (rs.foldl (processRecord bot now) st).store,
          s.id ≠ d.recordId := by
  intro rs
  induction rs with
  | nil => intro st h; exact h
  | cons r rest ih =>
    intro st h
    exact ih _ (processRecord_deletes bot now st r base h)

/-- A poll tick preserves the invariant. -/
theorem pollTick_inv (bot : String) (now : Nat) (st : SchedState)
    (h : SchedInv bot st) : SchedInv bot (pollTick bot now st) :=
  foldl_processRecord_inv bot now _ st h

/-- Running any event sequence preserves the invariant. -/
theorem runSched_inv (bot : String) :
    ∀ (events : List SchedEvent) (st : SchedState), SchedInv bot st →
      SchedInv bot (runSched bot st events) := by
  intro events
  induction events with
  | nil => intro st h; exact h
  | cons e rest ih =>
    intro st h
    cases e with
    | tick now => exact ih _ (pollTick_inv bot now st h)
    | setStore rs => exact ih _ h

/-- C5: starting from an empty fired set, over any sequence of poll ticks
and external store changes every record id is delivered at most once,
every delivery is the synthetic bot Utterance `⏰ Reminder: <message>`, and
every record delivered during a tick is absent from the store when the
tick completes (the record is deleted after the delivery side effect). -/
theorem c5_reminder_at_most_once (bot : String)
    (initialStore : List ReminderRecord) (events : List SchedEvent) :
    (∀ id : String,
      ((runSched bot ⟨[], initialStore, []⟩ events).emitted.filter
        (fun d => d.recordId == id)).length ≤ 1) ∧
    (∀ d ∈ (runSched bot ⟨[], initialStore, []⟩ events).emitted,
      d.sender = bot ∧ ∃ m, d.text = "⏰ Reminder: " ++ m) ∧
    (∀ (now : Nat) (st : SchedState) (d : Delivery),
      d ∈ (pollTick bot now st).emitted → d ∉ st.emitted →
      ∀ s ∈ (pollTick bot now st).store, s.id ≠ d.recordId) := by
  have hinv := runSched_inv bot events ⟨[], initialStore, []⟩
    ⟨by simp, by simp, by simp⟩
  refine ⟨?_, hinv.2.2, ?_⟩
  · intro id
    have hnd := hinv.1
    have hcount :
        ((runSched bot ⟨[], initialStore, []⟩ events).emitted.filter
          (fun d => d.recordId == id)).length
        = ((runSched bot ⟨[], initialStore, []⟩ events).emitted.map
            Delivery.recordId).count id := by
      rw [List.count, List.countP_map, ← List.countP_eq_length_filter]
      rfl
    rw [hcount]
    exact List.nodup_iff_count_le_one.mp hnd id
  · intro now st d hd hdb s hs
    exact foldl_processRecord_deletes bot now st.emitted _ st
      (fun d' hd' hdb' => absurd hd' hdb') d hd hdb s hs

/-- C5 witness: one record, two poll ticks with the record re-added to the
store in between; the reminder is still delivered only once and the
delivery is the bot Utterance. -/
theorem c5_witness :
    (((runSched "B" ⟨[], [⟨"r1", 5, "call Sam"⟩], []⟩
        [SchedEvent.tick 100, SchedEvent.setStore [⟨"r1", 5, "call Sam"⟩],
          SchedEvent.tick 200]).emitted.filter
      (fun d => d.recordId == "r1")).length ≤ 1) ∧
    ((⟨"r1", "B", "⏰ Reminder: call Sam"⟩ : Delivery).sender = "B" ∧
      ∃ m, (⟨"r1", "B", "⏰ Reminder: call Sam"⟩ : Delivery).text =
        "⏰ Reminder: " ++ m) :=
  ⟨(c5_reminder_at_most_once "B" [⟨"r1", 5, "call Sam"⟩]
      [SchedEvent.tick 100, SchedEvent.setStore [⟨"r1", 5, "call Sam"⟩],
        SchedEvent.tick 200]).1 "r1",
   (c5_reminder_at_most_once "B" [⟨"r1", 5, "call Sam"⟩]
      [SchedEvent.tick 100, SchedEvent.setStore [⟨"r1", 5, "call Sam"⟩],
        SchedEvent.tick 200]).2.1 ⟨"r1", "B", "⏰ Reminder: call Sam"⟩
      (by decide)⟩

end SchedulerClaims

end QVT

namespace QVT

section RemindmeClaims

/-- The case-insensitive literal `remindme ` consumes exactly the pattern
prefix. -/
theorem stripCI_remindPat (rest : List Char) :
    stripCI remindPat (remindPat ++ rest) = some rest := rfl

/-- Maximal digit munch over a digit run followed by a non-digit. -/
theorem span_digits (d : List Char) (u : Char) (rest : List Char)
    (hd : ∀ c ∈ d, c.isDigit = true) (hu : u.isDigit = false) :
    (d ++ u :: rest).takeWhile Char.isDigit = d ∧
    (d ++ u :: rest).dropWhile Char.isDigit = u :: rest := by
  induction d with
  | nil => simp [List.takeWhile, List.dropWhile, hu]
  | cons c cs ih =>
    have hc : c.isDigit = true := hd c (by simp)
    have ih' := ih (fun x hx => hd x (by simp [hx]))
    simp [List.takeWhile_cons, List.dropWhile_cons, hc, ih'.1, ih'.2]

/-- The greedy `(.+)"` capture of a message free of quotes and line
terminators, closed by its final quote. -/
theorem greedyQuoteCapture_closed (m : List Char)
    (hm : ∀ c ∈ m, c ≠ '"' ∧ isLineTerminator c = false) :
    greedyQuoteCapture (m ++ ['"']) = some m := by
  induction m with
  | nil => decide
  | cons c cs ih =>
    have hc := hm c (by simp)
    have ih' := ih (fun x hx => hm x (by simp [hx]))
    simp [greedyQuoteCapture, hc.2, ih']

/-- The regular expression matches at the start of a well-formed
`remindme <N><u> "<message>"` suffix and captures its three groups. -/
theorem tryMatch_wellformed (d : List Char) (u : Char) (m : List Char)
    (hd : d ≠ []) (hdig : ∀ c ∈ d, c.isDigit = true)
    (hu : u = 'm' ∨ u = 'h') (hm : m ≠ [])
    (hmch : ∀ c ∈ m, c ≠ '"' ∧ isLineTerminator c = false) :
    tryMatch (remindPat ++ (d ++ (u :: ' ' :: '"' :: (m ++ ['"'])))) =
      some (d, u, m) := by
  have hu' : u.isDigit = false := by
    rcases hu with rfl | rfl <;> decide
  have hcontains : unitChars.contains u = true := by
    rcases hu with rfl | rfl <;> decide
  have hspan := span_digits d u (' ' :: '"' :: (m ++ ['"'])) hdig hu'
  have hgreedy := greedyQuoteCapture_closed m hmch
  obtain ⟨c0, d', rfl⟩ := List.exists_cons_of_ne_nil hd
  obtain ⟨m0, m', rfl⟩ := List.exists_cons_of_ne_nil hm
  simp only [tryMatch, stripCI_remindPat, hspan.1, hspan.2, hcontains,
    hgreedy, List.isEmpty_cons, if_false, Bool.false_eq_true, if_true]

/-- A match at the head of the scanned list is the search result. -/
theorem searchMatch_head (s : List Char) (r : List Char × Char × List Char)
    (h : tryMatch s = some r) : searchMatch s = some r := by
  cases s with
  | nil => simpa [searchMatch] using h
  | cons c cs => simp [searchMatch, h]

/-- The unanchored search over the full well-formed command skips the
leading slash and matches at position 1. -/
theorem searchMatch_wellformed (d : List Char) (u : Char) (m : List Char)
    (hd : d ≠ []) (hdig : ∀ c ∈ d, c.isDigit = true)
    (hu : u = 'm' ∨ u = 'h') (hm : m ≠ [])
    (hmch : ∀ c ∈ m, c ≠ '"' ∧ isLineTerminator c = false) :
    searchMatch ('/' :: (remindPat ++ (d ++ (u :: ' ' :: '"' :: (m ++ ['"'])))))
      = some (d, u, m) := by
  have hty := tryMatch_wellformed d u m hd hdig hu hm hmch
  have h1 : tryMatch
      ('/' :: (remindPat ++ (d ++ (u :: ' ' :: '"' :: (m ++ ['"']))))) = none := by
    simp [tryMatch, stripCI, remindPat]
  rw [searchMatch, h1]
  exact searchMatch_head _ _ hty

/-- When no suffix of the input matches, the unanchored search fails. -/
theorem searchMatch_none_of_all (s : List Char)
    (h : ∀ t, List.IsSuffix t s → tryMatch t = none) :
    searchMatch s = none := by
  induction s with
  | nil => simpa [searchMatch] using h [] (List.suffix_refl [])
  | cons c cs ih =>
    have h1 := h (c :: cs) (List.suffix_refl _)
    have h2 : ∀ t, List.IsSuffix t cs → tryMatch t = none := fun t ht =>
      h t (ht.trans (List.suffix_cons c cs))
    simp [searchMatch, h1, ih h2]

/-- C9 counterexample.  The input `/remindme ! remindme 1m "x"` starts with
`/remindme` but is not of the well-formed `/remindme <N><m|h> "<message>"`
shape (the character after the command word is `!`); the claim requires no
record and the usage reply, yet the unanchored regular expression matches
the embedded `remindme 1m "x"` and a reminder record due in 60000 ms is
created. -/
theorem c9_counterexample :
    ¬ claimShapeRemindme ("/remindme ! remindme 1m \"x\"".data) ∧
    (askAgentQRemindme "/remindme ! remindme 1m \"x\"" 0).created =
      some (60000, "x") ∧
    (askAgentQRemindme "/remindme ! remindme 1m \"x\"" 0).reply ≠ usageReply ∧
    strStartsWith (strLower "/remindme ! remindme 1m \"x\"") "/remindme"
      = true := by
  refine ⟨?_, by decide, by decide, by decide⟩
  rintro ⟨d, u, m, hd, hdig, hu, hm, heq⟩
  obtain ⟨c0, d', rfl⟩ := List.exists_cons_of_ne_nil hd
  have hc0 : c0.isDigit = true := hdig c0 (List.mem_cons_self _ _)
  have hlit : "/remindme ! remindme 1m \"x\"".data =
      ['/', 'r', 'e', 'm', 'i', 'n', 'd', 'm', 'e', ' ', '!', ' ', 'r', 'e',
       'm', 'i', 'n', 'd', 'm', 'e', ' ', '1', 'm', ' ', '"', 'x', '"'] := rfl
  rw [hlit] at heq
  simp only [remindPat, List.cons_append, List.nil_append,
    List.cons.injEq] at heq
  obtain ⟨-, -, -, -, -, -, -, -, -, -, hc, -⟩ := heq
  rw [← hc] at hc0
  exact absurd hc0 (by decide)

/-- C9 amended: a well-formed `/remindme <N><m|h> "<message>"` command
(message non-empty without quote or line-terminator characters) creates a
record due at now + N*60000 ms (unit `m`) or now + N*3600000 ms (unit `h`)
with the given message; and an input starting with `/remindme` in which no
suffix matches the `remindme <N><m|h> "<message>"` pattern creates no
record and gets the usage help reply.  (Inputs that are malformed but
contain a matching substring elsewhere, or that use an uppercase unit
letter, fall outside both halves: the unanchored case-insensitive regex
accepts them.) -/
theorem c9_remindme_amended :
    (∀ (d : List Char) (u : Char) (m : List Char) (now : Nat),
      d ≠ [] → (∀ c ∈ d, c.isDigit = true) → (u = 'm' ∨ u = 'h') →
      m ≠ [] → (∀ c ∈ m, c ≠ '"' ∧ isLineTerminator c = false) →
      askAgentQRemindme
        (String.mk
          ('/' :: (remindPat ++ (d ++ (u :: ' ' :: '"' :: (m ++ ['"'])))))) now
        = ⟨some (now + (if u = 'm' then digitsToNat d * 60000
              else digitsToNat d * 3600000), String.mk m),
           "Agent Q: I" ++ apos ++ "ll remind you in " ++ String.mk d ++
             String.mk [u] ++ ": \"" ++ String.mk m ++ "\"."⟩) ∧
    (∀ (s : String) (now : Nat),
      strStartsWith (strLower s) "/remindme" = true →
      (∀ t, List.IsSuffix t s.data → tryMatch t = none) →
      askAgentQRemindme s now = ⟨none, usageReply⟩) := by
  constructor
  · intro d u m now hd hdig hu hm hmch
    have hs := searchMatch_wellformed d u m hd hdig hu hm hmch
    unfold askAgentQRemindme
    rw [show (String.mk
        ('/' :: (remindPat ++ (d ++ (u :: ' ' :: '"' :: (m ++ ['"'])))))).data
      = '/' :: (remindPat ++ (d ++ (u :: ' ' :: '"' :: (m ++ ['"'])))) from rfl,
      hs]
  · intro s now hstart hfail
    have hnone := searchMatch_none_of_all s.data hfail
    unfold askAgentQRemindme
    rw [hnone]

/-- C9 witness: `/remindme 2m "hi"` issued at time 7 creates a record due
at 120007 with message `hi`; the plain `/remindme` (no arguments) creates
no record and replies with the usage help. -/
theorem c9_witness :
    askAgentQRemindme "/remindme 2m \"hi\"" 7 =
      ⟨some (120007, "hi"),
        "Agent Q: I" ++ apos ++ "ll remind you in 2m: \"hi\"."⟩ ∧
    askAgentQRemindme "/remindme" 3 = ⟨none, usageReply⟩ := by
  constructor
  · have h := c9_remindme_amended.1 ['2'] 'm' ['h', 'i'] 7 (by decide)
      (by decide) (Or.inl rfl) (by decide) (by decide)
    have harg : "/remindme 2m \"hi\"" = String.mk
        ('/' :: (remindPat ++ (['2'] ++ ('m' :: ' ' :: '"' ::
          (['h', 'i'] ++ ['"']))))) := by decide
    rw [harg, h]
    decide
  · refine c9_remindme_amended.2 "/remindme" 3 (by decide) ?_
    intro t ht
    have hmem : t ∈ ("/remindme".data).tails := (List.mem_tails _ _).mpr ht
    fin_cases hmem <;> decide

end RemindmeClaims

end QVT
